import Mathlib

/-!
A formalisation of the C atomics shims layer of swift-atomics
(`Sources/_AtomicsShims/include/_AtomicsShims.h` and
`Sources/_AtomicsShims/src/_AtomicsShims.c`).

The header stamps out, for every supported storage type, the operation set
prepare/dispose/load/store/exchange/compare-exchange/fetch-modify via C
preprocessor macros.  We embed the sequential (single-location,
interleaving-free) semantics of those generated functions: an atomic
storage cell is a record holding its representation value, and every
operation is a pure function from the cell (and its arguments) to results
and an updated cell.  Memory orderings are carried as explicit parameters,
exactly as the generated C symbols carry them in their names; they do not
change the sequential result of an operation.

Machine integers are modelled as their unsigned bit patterns: a value of a
w-bit storage type is a `Nat` below `2 ^ w`, and the wrapping arithmetic of
the C `atomic_fetch_*` builtins is explicit `% 2 ^ w`.
-/

namespace SwiftAtomics

/-- Memory orderings of the C11 atomics model, as used by the shims
(`memory_order_relaxed`, `acquire`, `release`, `acq_rel`, `seq_cst`;
`memory_order_consume` is never generated). -/
inductive MemoryOrder where
  | relaxed
  | acquire
  | release
  | acq_rel
  | seq_cst
deriving DecidableEq, Repr

/-- Load orderings generated by `SWIFTATOMIC_LOAD_FNS` (header lines 216-219). -/
def loadOrders : List MemoryOrder := [.relaxed, .acquire, .seq_cst]

/-- Store orderings generated by `SWIFTATOMIC_STORE_FNS` (header lines 211-214). -/
def storeOrders : List MemoryOrder := [.relaxed, .release, .seq_cst]

/-- Exchange orderings generated by `SWIFTATOMIC_EXCHANGE_FNS` (header lines 221-226). -/
def exchangeOrders : List MemoryOrder :=
  [.relaxed, .acquire, .release, .acq_rel, .seq_cst]

/-- Orderings generated for the fetch-modify operations by
`SWIFTATOMIC_INTEGER_FNS` (header lines 239-244). -/
def updateOrders : List MemoryOrder :=
  [.relaxed, .acquire, .release, .acq_rel, .seq_cst]

/-- The nine legal (success, failure) ordering pairs generated for
compare-exchange by `SWIFTATOMIC_CMPXCHG_FNS` (header lines 228-237). -/
def cmpxchgOrderPairs : List (MemoryOrder × MemoryOrder) :=
  [ (.relaxed, .relaxed), (.acquire, .relaxed), (.release, .relaxed),
    (.acq_rel, .relaxed), (.seq_cst, .relaxed), (.acquire, .acquire),
    (.acq_rel, .acquire), (.seq_cst, .acquire), (.seq_cst, .seq_cst) ]

/-!
SIMPLE storage types.  The ten integer types (`Int`, `Int8` .. `Int64`,
`UInt`, `UInt8` .. `UInt64`) all use identity `SWIFTATOMIC_ENCODE`/`DECODE`
macros and the SIMPLE compare-exchange variant, so one parametric model
covers them: a w-bit value is its unsigned bit pattern, a `Nat` below
`2 ^ w`.  `WordStorage` is the struct `{ _Atomic(storageType) value; }`
from `SWIFTATOMIC_STORAGE_TYPE` (header lines 99-103).
-/

/-- Atomic storage cell for a SIMPLE integer type: the struct holding one
`_Atomic(storageType) value` field (header lines 99-103). -/
structure WordStorage where
  value : Nat
deriving DecidableEq, Repr

/-- SWIFTATOMIC_PREPARE_FN for a SIMPLE type (header lines 106-113): the
encode macro is the identity, so the cell is initialised with `value`
itself.  The `atomic_is_lock_free` assertion is a trusted hardware
capability precondition with no effect on the stored value. -/
def _sa_prepare_word (value : Nat) : WordStorage := ⟨value⟩

/-- SWIFTATOMIC_DISPOSE_FN for a SIMPLE type (header lines 116-121): decode
(identity) of the stored representation; no other effect. -/
def _sa_dispose_word (storage : WordStorage) : Nat := storage.value

/-- SWIFTATOMIC_LOAD_FN for a SIMPLE type (header lines 124-132). -/
def _sa_load_word (_order : MemoryOrder) (ptr : WordStorage) : Nat := ptr.value

/-- SWIFTATOMIC_STORE_FN for a SIMPLE type (header lines 135-144): returns
the updated cell. -/
def _sa_store_word (_order : MemoryOrder) (_ptr : WordStorage) (desired : Nat) :
    WordStorage := ⟨desired⟩

/-- SWIFTATOMIC_EXCHANGE_FN for a SIMPLE type (header lines 147-158):
returns (previous value, updated cell). -/
def _sa_exchange_word (_order : MemoryOrder) (ptr : WordStorage) (desired : Nat) :
    Nat × WordStorage := (ptr.value, ⟨desired⟩)

/-- SWIFTATOMIC_CMPXCHG_FN_SIMPLE with `_kind = strong` (header lines
161-175), i.e. C11 `atomic_compare_exchange_strong_explicit` acting
directly on the exported type: returns (result, updated cell, value left
in `*expected`).  On success the cell becomes `desired` and `*expected` is
untouched; on failure the cell is untouched and `*expected` receives the
observed value. -/
def _sa_cmpxchg_strong_word (_succ _fail : MemoryOrder) (ptr : WordStorage)
    (expected desired : Nat) : Bool × WordStorage × Nat :=
  if ptr.value = expected then (true, ⟨desired⟩, expected)
  else (false, ptr, ptr.value)

/-- SWIFTATOMIC_CMPXCHG_FN_SIMPLE with `_kind = weak` (header lines
161-175), i.e. C11 `atomic_compare_exchange_weak_explicit`.  The C11
semantics permit a spurious failure even when the comparison holds; the
scheduling-dependent choice is passed in as the `spurious` oracle.  A
spurious failure behaves exactly like an ordinary failure: the cell is
untouched and `*expected` receives the observed value. -/
def _sa_cmpxchg_weak_word (spurious : Bool) (_succ _fail : MemoryOrder)
    (ptr : WordStorage) (expected desired : Nat) : Bool × WordStorage × Nat :=
  if ptr.value = expected ∧ spurious = false then (true, ⟨desired⟩, expected)
  else (false, ptr, ptr.value)

/-- The fetch-modify operations stamped out by `SWIFTATOMIC_INTEGER_FN`
(header lines 197-208): `add`, `sub`, `or`, `xor`, `and`. -/
inductive FetchOp where
  | add
  | sub
  | or
  | xor
  | and
deriving DecidableEq, Repr, Fintype

/-- Result of a C11 `atomic_fetch_<op>_explicit` builtin on a w-bit
unsigned bit pattern: wrapping add/sub modulo `2 ^ w`, bitwise or/xor/and.
Both arguments are assumed below `2 ^ w`. -/
def fetchOpWord (w : Nat) (op : FetchOp) (a b : Nat) : Nat :=
  match op with
  | .add => (a + b) % 2 ^ w
  | .sub => (2 ^ w + a - b) % 2 ^ w
  | .or => a ||| b
  | .xor => a ^^^ b
  | .and => a &&& b

/-- SWIFTATOMIC_INTEGER_FN for a SIMPLE w-bit integer type (header lines
197-208): returns (previous value, updated cell). -/
def _sa_fetch_word (w : Nat) (op : FetchOp) (_order : MemoryOrder)
    (ptr : WordStorage) (operand : Nat) : Nat × WordStorage :=
  (ptr.value, ⟨fetchOpWord w op ptr.value operand⟩)

/-!
Boolean storage.  `SWIFTATOMIC_DEFINE_TYPE(SIMPLE, Bool, bool, bool)`
(header line 308) gives Bool the full non-integer operation set with
identity encode/decode; header lines 309-311 additionally generate the
`or`, `xor` and `and` fetch-modify families (and only those).  A C `bool`
holds the bit pattern 0 or 1, and the atomic fetch builtins act on that
bit pattern; `natToBool` is the C nonzero-test reading the pattern back.
-/

/-- Atomic storage cell for `Bool`: struct holding `_Atomic(bool) value`. -/
structure BoolStorage where
  value : Bool
deriving DecidableEq, Repr

/-- C reading of a stored bit pattern as `bool` (nonzero test). -/
def natToBool (n : Nat) : Bool := n ≠ 0

/-- SWIFTATOMIC_PREPARE_FN for `Bool` (identity encode). -/
def _sa_prepare_Bool (value : Bool) : BoolStorage := ⟨value⟩

/-- SWIFTATOMIC_DISPOSE_FN for `Bool` (identity decode). -/
def _sa_dispose_Bool (storage : BoolStorage) : Bool := storage.value

/-- SWIFTATOMIC_LOAD_FN for `Bool`. -/
def _sa_load_Bool (_order : MemoryOrder) (ptr : BoolStorage) : Bool := ptr.value

/-- SWIFTATOMIC_STORE_FN for `Bool`. -/
def _sa_store_Bool (_order : MemoryOrder) (_ptr : BoolStorage) (desired : Bool) :
    BoolStorage := ⟨desired⟩

/-- SWIFTATOMIC_EXCHANGE_FN for `Bool`. -/
def _sa_exchange_Bool (_order : MemoryOrder) (ptr : BoolStorage) (desired : Bool) :
    Bool × BoolStorage := (ptr.value, ⟨desired⟩)

/-- SWIFTATOMIC_CMPXCHG_FN_SIMPLE, strong kind, for `Bool`. -/
def _sa_cmpxchg_strong_Bool (_succ _fail : MemoryOrder) (ptr : BoolStorage)
    (expected desired : Bool) : Bool × BoolStorage × Bool :=
  if ptr.value = expected then (true, ⟨desired⟩, expected)
  else (false, ptr, ptr.value)

/-- SWIFTATOMIC_CMPXCHG_FN_SIMPLE, weak kind, for `Bool`, with the C11
spurious-failure choice passed as an oracle. -/
def _sa_cmpxchg_weak_Bool (spurious : Bool) (_succ _fail : MemoryOrder)
    (ptr : BoolStorage) (expected desired : Bool) : Bool × BoolStorage × Bool :=
  if ptr.value = expected ∧ spurious = false then (true, ⟨desired⟩, expected)
  else (false, ptr, ptr.value)

/-- SWIFTATOMIC_INTEGER_FN instantiated at `Bool` (header lines 309-311):
only the `or`, `xor` and `and` families are stamped out, so the other ops
have no corresponding C symbol, modelled as `none`.  The builtin acts
bitwise on the 0/1 bit pattern of the stored `bool`. -/
def _sa_fetch_Bool (op : FetchOp) (_order : MemoryOrder) (ptr : BoolStorage)
    (operand : Bool) : Option (Bool × BoolStorage) :=
  match op with
  | .or | .xor | .and =>
      some (ptr.value, ⟨natToBool (fetchOpWord 1 op ptr.value.toNat operand.toNat)⟩)
  | _ => none

/-!
Double-wide atomics (header lines 313-356).  The representation type
`_sa_double_word_ctype` is `__uint128_t` when `__SIZEOF_POINTER__ == 8`
and `uint64_t` when it is 4; `__INTPTR_WIDTH__` (the pointer width in
bits, `pw` below) is 64 or 32 accordingly, and the representation is
`2 * pw` bits wide.  The exported struct `_sa_dword` wraps one field of
the representation type.
-/

/-- The exported struct `_sa_dword` (`DoubleWord`), header lines 326-328:
one field of the `2 * pw`-bit representation type, modelled as its
unsigned bit pattern. -/
structure DWord where
  value : Nat
deriving DecidableEq, Repr

/-- The function `_sa_dword_create` (header lines 330-333):
`(_sa_dword){ ((ctype)high << __INTPTR_WIDTH__) | (ctype)low }`.  The two
`uintptr_t` arguments widen without change; the shift is performed in the
`2 * pw`-bit representation type, hence the reduction modulo
`2 ^ (2 * pw)`. -/
def _sa_dword_create (pw : Nat) (high low : Nat) : DWord :=
  ⟨(high <<< pw) % 2 ^ (2 * pw) ||| low⟩

/-- The function `_sa_dword_extract_high` (header lines 335-338):
`(uintptr_t)(value.value >> __INTPTR_WIDTH__)`; the narrowing cast to
`uintptr_t` truncates modulo `2 ^ pw`. -/
def _sa_dword_extract_high (pw : Nat) (value : DWord) : Nat :=
  (value.value >>> pw) % 2 ^ pw

/-- The function `_sa_dword_extract_low` (header lines 340-343):
`(uintptr_t)value.value`, truncating modulo `2 ^ pw`. -/
def _sa_dword_extract_low (pw : Nat) (value : DWord) : Nat :=
  value.value % 2 ^ pw

/-- The function `_sa_decode_dword` (header lines 345-348): wraps a
representation value back into the exported struct.  This is the
`SWIFTATOMIC_DECODE_DoubleWord` macro (header line 352). -/
def _sa_decode_dword (value : Nat) : DWord := ⟨value⟩

/-- The `SWIFTATOMIC_ENCODE_DoubleWord` macro (header line 351): projects
the struct onto its representation field. -/
def _sa_encode_dword (value : DWord) : Nat := value.value

/-- Atomic storage cell for `DoubleWord`: struct holding
`_Atomic(_sa_double_word_ctype) value` (header line 353 via
`SWIFTATOMIC_STORAGE_TYPE`). -/
structure DWordStorage where
  value : Nat
deriving DecidableEq, Repr

/-- SWIFTATOMIC_PREPARE_FN for `DoubleWord` (encode is the field
projection). -/
def _sa_prepare_DoubleWord (value : DWord) : DWordStorage :=
  ⟨_sa_encode_dword value⟩

/-- SWIFTATOMIC_DISPOSE_FN for `DoubleWord` (decode wraps the
representation back up; no other effect). -/
def _sa_dispose_DoubleWord (storage : DWordStorage) : DWord :=
  _sa_decode_dword storage.value

/-- SWIFTATOMIC_LOAD_FN for `DoubleWord`. -/
def _sa_load_DoubleWord (_order : MemoryOrder) (ptr : DWordStorage) : DWord :=
  _sa_decode_dword ptr.value

/-- SWIFTATOMIC_STORE_FN for `DoubleWord`. -/
def _sa_store_DoubleWord (_order : MemoryOrder) (_ptr : DWordStorage)
    (desired : DWord) : DWordStorage := ⟨_sa_encode_dword desired⟩

/-- SWIFTATOMIC_EXCHANGE_FN for `DoubleWord`. -/
def _sa_exchange_DoubleWord (_order : MemoryOrder) (ptr : DWordStorage)
    (desired : DWord) : DWord × DWordStorage :=
  (_sa_decode_dword ptr.value, ⟨_sa_encode_dword desired⟩)

/-- SWIFTATOMIC_CMPXCHG_FN_COMPLEX, strong kind, for `DoubleWord` (header
lines 177-194): the expected value is encoded into the temporary
`_expected`, the C11 builtin runs against the representation cell, and
`*expected` receives the decoded temporary afterwards (unchanged on
success, the observed representation on failure).  Returns
(result, updated cell, value left in `*expected`). -/
def _sa_cmpxchg_strong_DoubleWord (_succ _fail : MemoryOrder)
    (ptr : DWordStorage) (expected desired : DWord) :
    Bool × DWordStorage × DWord :=
  let e := _sa_encode_dword expected
  if ptr.value = e then (true, ⟨_sa_encode_dword desired⟩, _sa_decode_dword e)
  else (false, ptr, _sa_decode_dword ptr.value)

/-- SWIFTATOMIC_CMPXCHG_FN_COMPLEX, weak kind, for `DoubleWord`, with the
C11 spurious-failure choice passed as an oracle. -/
def _sa_cmpxchg_weak_DoubleWord (spurious : Bool) (_succ _fail : MemoryOrder)
    (ptr : DWordStorage) (expected desired : DWord) :
    Bool × DWordStorage × DWord :=
  let e := _sa_encode_dword expected
  if ptr.value = e ∧ spurious = false then
    (true, ⟨_sa_encode_dword desired⟩, _sa_decode_dword e)
  else (false, ptr, _sa_decode_dword ptr.value)

/-!
Generic SIMPLE and COMPLEX strong compare-exchange, abstracted over the
exported type, the storage type and the encode/decode adapters, exactly as
the two macro bodies are abstracted over them.  Used to relate the two
variants when the adapters are identities.
-/

/-- Body of `SWIFTATOMIC_CMPXCHG_FN_SIMPLE` (header lines 161-175) for an
arbitrary exported type `T` with storage identical to `T`: the C11 strong
compare-exchange acting directly on `*expected`.  Returns (result, updated
cell contents, value left in `*expected`). -/
def cmpxchgSimple {T : Type} [DecidableEq T] (storage expected desired : T) :
    Bool × T × T :=
  if storage = expected then (true, desired, expected)
  else (false, storage, storage)

/-- Body of `SWIFTATOMIC_CMPXCHG_FN_COMPLEX` (header lines 177-194) for an
arbitrary exported type `T`, storage type `S` and adapter pair
`encode : T → S`, `decode : S → T`: the expected value is routed through
the temporary `_expected`, and `*expected` receives its decoding after the
builtin returns.  Returns (result, updated cell contents, value left in
`*expected`). -/
def cmpxchgComplex {T S : Type} [DecidableEq S] (encode : T → S) (decode : S → T)
    (storage : S) (expected desired : T) : Bool × S × T :=
  let e := encode expected
  if storage = e then (true, encode desired, decode e)
  else (false, storage, decode storage)

/-!
Which fetch-modify symbols the header actually stamps out.  The ten
integer types go through `SWIFTATOMIC_DEFINE_INTEGER_TYPE` (header lines
256-262), which generates all five op families; `Bool` goes through
`SWIFTATOMIC_DEFINE_TYPE` plus explicit `or`/`xor`/`and` families (header
lines 308-311); `DoubleWord` gets no fetch-modify family at all (header
lines 350-356).
-/

/-- The storage types defined by the header (instantiation lines 264-311
and 313-356). -/
inductive AtomicTy where
  | Int
  | Int8
  | Int16
  | Int32
  | Int64
  | UInt
  | UInt8
  | UInt16
  | UInt32
  | UInt64
  | Bool
  | DoubleWord
deriving DecidableEq, Repr, Fintype

/-- Whether a storage type is one of the ten integer types, i.e. is
defined through `SWIFTATOMIC_DEFINE_INTEGER_TYPE` (header lines 264-303). -/
def isIntegerTy : AtomicTy → Bool
  | .Int | .Int8 | .Int16 | .Int32 | .Int64
  | .UInt | .UInt8 | .UInt16 | .UInt32 | .UInt64 => true
  | .Bool | .DoubleWord => false

/-- Whether the header stamps out a `_sa_fetch_<op>_<order>_<type>` symbol
family for the given type and op: all five ops for the ten integer types
(header lines 256-262), only `or`/`xor`/`and` for `Bool` (header lines
309-311), none for `DoubleWord`. -/
def fetchModifyDefined (t : AtomicTy) (op : FetchOp) : Bool :=
  match t, op with
  | .Bool, .or | .Bool, .xor | .Bool, .and => true
  | .Bool, _ => false
  | .DoubleWord, _ => false
  | t, _ => isIntegerTy t

/-!
The deferred symbol resolver on the dynamic-binding (Apple) configuration
(`_AtomicsShims.c` lines 27-57).  `_sa_initializeResolver` calls
`dlopen("/usr/lib/swift/libswiftCore.dylib", RTLD_LAZY | RTLD_GLOBAL |
RTLD_NOLOAD)`; with `RTLD_NOLOAD` the call returns a handle only when the
module is already resident in the process and never loads a fresh
instance.  A `NULL` handle aborts the process; otherwise both symbols are
resolved by `dlsym`.  `_sa_retain_n` / `_sa_release_n` run the initializer
through the `dispatch_once_f` gate before the first actual call.
-/

/-- Dynamic-loader state relevant to the resolver: whether an instance of
`libswiftCore.dylib` is already resident in the process. -/
structure LoaderState where
  swiftCoreResident : Bool
deriving DecidableEq, Repr

/-- The `dlopen` call of `_sa_initializeResolver` (`_AtomicsShims.c` lines 38-39),
including its effect on the loader: with `noload = true` (the
`RTLD_NOLOAD` flag the source always passes) it returns a handle exactly
when the module is resident and leaves the loader state unchanged;
without it, it would load a fresh instance.  Returns (handle?, new
state). -/
def dlopenSwiftCore (noload : Bool) (st : LoaderState) :
    Option Unit × LoaderState :=
  if st.swiftCoreResident then (some (), st)
  else if noload then (none, st)
  else (some (), ⟨true⟩)

/-- The pair of function pointers resolved by `_sa_initializeResolver`
(`_AtomicsShims.c` lines 33-34 and 43-44). -/
structure SymbolTable where
  retain_n : Nat
  release_n : Nat
deriving DecidableEq, Repr

/-- Outcome of running the resolver body: either the process aborts, or
the symbol table is filled in. -/
inductive InitOutcome where
  | aborted
  | ready (table : SymbolTable)
deriving DecidableEq, Repr

/-- The function `_sa_initializeResolver` (`_AtomicsShims.c` lines 36-45):
`dlopen` with `RTLD_NOLOAD`, `abort()` on a `NULL` handle, otherwise
`dlsym` for both symbols.  `dlsymCore` abstracts the resident module's
symbol addresses.  Returns (outcome, loader state afterwards). -/
def _sa_initializeResolver (dlsymCore : String → Nat) (st : LoaderState) :
    InitOutcome × LoaderState :=
  match dlopenSwiftCore true st with
  | (none, st') => (.aborted, st')
  | (some _, st') =>
      (.ready ⟨dlsymCore "swift_retain_n", dlsymCore "swift_release_n"⟩, st')

/-- A first call to `_sa_retain_n` (`_AtomicsShims.c` lines 47-51) with
the `dispatch_once_f` token still untriggered: the gate runs
`_sa_initializeResolver`; if that aborts, the call aborts, otherwise the resolved
`swift_retain_n` is invoked.  Returns (outcome, loader state
afterwards). -/
def _sa_retain_n_first (dlsymCore : String → Nat) (st : LoaderState) :
    InitOutcome × LoaderState :=
  _sa_initializeResolver dlsymCore st

/-- A first call to `_sa_release_n` (`_AtomicsShims.c` lines 53-57),
symmetric to `_sa_retain_n_first`. -/
def _sa_release_n_first (dlsymCore : String → Nat) (st : LoaderState) :
    InitOutcome × LoaderState :=
  _sa_initializeResolver dlsymCore st

/-!
The one-time gate.  Modelled from the spec: `dispatch_once_f` itself is an
external OS primitive, not part of this repository; the spec describes it
as a one-time gate with the state machine `Uninitialized → Initializing →
Ready` where any number of threads race to trigger first use, exactly one
executes the initializer body, the others block until it completes, and
afterwards every thread observes the resolved pointers.  We model `n`
threads each making its first call to `_sa_retain_n`, as an interleaving
transition system: a thread that finds the gate untriggered atomically
claims it and runs the initializer body (which bumps the instrumentation
counter and publishes the pointers); a thread that finds it claimed has no
enabled transition until the body completes; a thread that finds it done
skips the body.
-/

/-- State of the `dispatch_once` token (the spec's `Uninitialized →
Initializing → Ready` machine). -/
inductive OnceToken where
  | uninit
  | claimed
  | done
deriving DecidableEq, Repr

/-- Program counter of one thread making its first `_sa_retain_n` call. -/
inductive ThreadPC where
  | start
  | inBody
  | finished
deriving DecidableEq, Repr

/-- Global state of `n` threads racing through the one-time gate:
the token, the instrumentation counter incremented only inside the
initializer body, whether the pointers have been published, and each
thread's program counter. -/
structure OnceWorld (n : Nat) where
  token : OnceToken
  counter : Nat
  published : Bool
  threads : Fin n → ThreadPC

/-- Initial state: gate untriggered, counter zero, nothing published,
every thread about to make its first call. -/
def onceInit (n : Nat) : OnceWorld n :=
  { token := .uninit, counter := 0, published := false, threads := fun _ => .start }

/-- Modelled from the spec: the `dispatch_once_f` gate itself is an
external OS primitive, absent from this repository's sources, so its
one-time-gate contract is taken from the spec.  One interleaving step of
the gate protocol.  `enter` is the atomic
claim of the untriggered token; `body` is the initializer body completing
(counter bump, pointer publication, token release to `done`); `skip` is a
late arrival finding the token done and bypassing the body.  A thread at
`start` while the token is `claimed` has no enabled step: it blocks. -/
inductive OnceStep (n : Nat) : OnceWorld n → OnceWorld n → Prop where
  | enter (w : OnceWorld n) (i : Fin n)
      (hpc : w.threads i = .start) (htok : w.token = .uninit) :
      OnceStep n w { w with token := .claimed,
                            threads := Function.update w.threads i .inBody }
  | body (w : OnceWorld n) (i : Fin n)
      (hpc : w.threads i = .inBody) :
      OnceStep n w { w with token := .done,
                            counter := w.counter + 1,
                            published := true,
                            threads := Function.update w.threads i .finished }
  | skip (w : OnceWorld n) (i : Fin n)
      (hpc : w.threads i = .start) (htok : w.token = .done) :
      OnceStep n w { w with threads := Function.update w.threads i .finished }

/-- Reachability from the initial state under any interleaving. -/
def OnceReachable (n : Nat) (w : OnceWorld n) : Prop :=
  Relation.ReflTransGen (OnceStep n) (onceInit n) w

/-- The map induced by `_sa_dword_create` on in-range arguments: a pair of
pointer-width bit patterns to a double-width bit pattern. -/
def dwordPack (pw : Nat) (p : Fin (2 ^ pw) × Fin (2 ^ pw)) : Fin (2 ^ (2 * pw)) :=
  ⟨(_sa_dword_create pw p.1.val p.2.val).value, by
    have h1 : p.1.val <<< pw % 2 ^ (2 * pw) < 2 ^ (2 * pw) :=
      Nat.mod_lt _ (Nat.two_pow_pos _)
    have h2 : (p.2.val : Nat) < 2 ^ (2 * pw) :=
      lt_of_lt_of_le p.2.isLt (Nat.pow_le_pow_right (by norm_num) (by omega))
    exact Nat.bitwise_lt h1 h2⟩

/-- The map induced by `_sa_dword_extract_high` and
`_sa_dword_extract_low` on an in-range double-width bit pattern. -/
def dwordUnpack (pw : Nat) (d : Fin (2 ^ (2 * pw))) :
    Fin (2 ^ pw) × Fin (2 ^ pw) :=
  (⟨_sa_dword_extract_high pw ⟨d.val⟩, Nat.mod_lt _ (Nat.two_pow_pos _)⟩,
   ⟨_sa_dword_extract_low pw ⟨d.val⟩, Nat.mod_lt _ (Nat.two_pow_pos _)⟩)

/-- Inductive invariant of the one-time gate protocol: before anyone
claims the token nothing has happened; while the token is claimed the
counter is still zero and exactly one thread is in the initializer body;
once the token is done the body has run exactly once, the pointers are
published, and nobody is in the body any more. -/
def OnceInv {n : Nat} (w : OnceWorld n) : Prop :=
  (w.token = .uninit →
    w.counter = 0 ∧ w.published = false ∧ ∀ i, w.threads i = .start) ∧
  (w.token = .claimed →
    w.counter = 0 ∧
      ∃ i, w.threads i = .inBody ∧ ∀ j, w.threads j = .inBody → j = i) ∧
  (w.token = .done →
    w.counter = 1 ∧ w.published = true ∧ ∀ i, w.threads i ≠ .inBody)

/-!
Theorems.  Shared computation lemmas come first; the per-claim theorems
follow.
-/

/-- Splitting a disjoint shift-or into addition: the low part fits below
the shift, so bitwise or is plain addition. -/
theorem shiftLeft_or_of_lt {h l pw : Nat} (hl : l < 2 ^ pw) :
    h <<< pw ||| l = h * 2 ^ pw + l := by
  rw [Nat.shiftLeft_eq, mul_comm h (2 ^ pw), ← Nat.mul_add_lt_is_or hl h]

/-- The representation value built by `_sa_dword_create` on in-range
arguments: the shift does not wrap and the or is disjoint. -/
theorem dword_create_value {pw high low : Nat} (hh : high < 2 ^ pw)
    (hl : low < 2 ^ pw) :
    (_sa_dword_create pw high low).value = high * 2 ^ pw + low := by
  have hsl : high <<< pw < 2 ^ (2 * pw) := by
    rw [Nat.shiftLeft_eq, two_mul, pow_add]
    exact Nat.mul_lt_mul_of_lt_of_le hh (le_refl _) (Nat.two_pow_pos pw)
  rw [_sa_dword_create, Nat.mod_eq_of_lt hsl, shiftLeft_or_of_lt hl]

/-- Forward round trip, high half. -/
theorem dword_extract_high_create {pw high low : Nat} (hh : high < 2 ^ pw)
    (hl : low < 2 ^ pw) :
    _sa_dword_extract_high pw (_sa_dword_create pw high low) = high := by
  rw [_sa_dword_extract_high, dword_create_value hh hl,
    Nat.shiftRight_eq_div_pow, add_comm,
    Nat.add_mul_div_right _ _ (Nat.two_pow_pos pw),
    Nat.div_eq_of_lt hl, Nat.zero_add, Nat.mod_eq_of_lt hh]

/-- Forward round trip, low half. -/
theorem dword_extract_low_create {pw high low : Nat} (hh : high < 2 ^ pw)
    (hl : low < 2 ^ pw) :
    _sa_dword_extract_low pw (_sa_dword_create pw high low) = low := by
  rw [_sa_dword_extract_low, dword_create_value hh hl, add_comm,
    Nat.add_mul_mod_self_right, Nat.mod_eq_of_lt hl]

/-- Equality of double words from equality of their representation
values. -/
theorem DWord_ext {a b : DWord} (h : a.value = b.value) : a = b := by
  cases a; cases b; cases h; rfl

/-- Reverse round trip: reconstructing a double word from its extracted
halves gives the double word back. -/
theorem dword_create_extract {pw : Nat} (d : DWord)
    (hd : d.value < 2 ^ (2 * pw)) :
    _sa_dword_create pw (_sa_dword_extract_high pw d)
      (_sa_dword_extract_low pw d) = d := by
  have hdiv : d.value / 2 ^ pw < 2 ^ pw := by
    rw [Nat.div_lt_iff_lt_mul (Nat.two_pow_pos pw), ← pow_add, ← two_mul]
    exact hd
  have hh : _sa_dword_extract_high pw d = d.value / 2 ^ pw := by
    rw [_sa_dword_extract_high, Nat.shiftRight_eq_div_pow,
      Nat.mod_eq_of_lt hdiv]
  have hl : _sa_dword_extract_low pw d = d.value % 2 ^ pw := rfl
  have hh2 : _sa_dword_extract_high pw d < 2 ^ pw := by rw [hh]; exact hdiv
  have hl2 : _sa_dword_extract_low pw d < 2 ^ pw :=
    Nat.mod_lt _ (Nat.two_pow_pos pw)
  apply DWord_ext
  rw [dword_create_value hh2 hl2, hh, hl, mul_comm]
  exact Nat.div_add_mod d.value (2 ^ pw)

/-- The invariant holds initially. -/
theorem onceInv_init (n : Nat) : OnceInv (onceInit n) :=
  ⟨fun _ => ⟨rfl, rfl, fun _ => rfl⟩,
   ⟨fun h => OnceToken.noConfusion h, fun h => OnceToken.noConfusion h⟩⟩

/-- The invariant is preserved by every step of the gate protocol. -/
theorem onceInv_step {n : Nat} {w w' : OnceWorld n}
    (hstep : OnceStep n w w') (hinv : OnceInv w) : OnceInv w' := by
  cases hstep with
  | enter i hpc htok =>
      obtain ⟨h0, -, hstart⟩ := hinv.1 htok
      refine ⟨fun h => OnceToken.noConfusion h, fun _ => ⟨h0, ⟨i, ?_, ?_⟩⟩,
        fun h => OnceToken.noConfusion h⟩
      · show Function.update w.threads i ThreadPC.inBody i = ThreadPC.inBody
        rw [Function.update_same]
      · intro j hj
        replace hj : Function.update w.threads i ThreadPC.inBody j = ThreadPC.inBody := hj
        by_contra hne
        rw [Function.update_noteq hne] at hj
        have hs := hstart j
        rw [hj] at hs
        exact ThreadPC.noConfusion hs
  | body i hpc =>
      cases htok : w.token
      case uninit =>
        obtain ⟨-, -, hstart⟩ := hinv.1 htok
        have hs := hstart i
        rw [hpc] at hs
        exact ThreadPC.noConfusion hs
      case done =>
        obtain ⟨-, -, hnb⟩ := hinv.2.2 htok
        exact absurd hpc (hnb i)
      case claimed =>
      obtain ⟨h0, j, hj, huniq⟩ := hinv.2.1 htok
      refine ⟨fun h => OnceToken.noConfusion h, fun h => OnceToken.noConfusion h,
        fun _ => ⟨?_, rfl, ?_⟩⟩
      · show w.counter + 1 = 1
        rw [h0]
      · intro k
        show Function.update w.threads i ThreadPC.finished k ≠ ThreadPC.inBody
        by_cases hk : k = i
        · subst hk
          rw [Function.update_same]
          exact fun hh => ThreadPC.noConfusion hh
        · rw [Function.update_noteq hk]
          intro hkb
          exact hk ((huniq k hkb).trans (huniq i hpc).symm)
  | skip i hpc htok =>
      obtain ⟨h1, hpub, hnb⟩ := hinv.2.2 htok
      refine ⟨fun h => OnceToken.noConfusion (htok.symm.trans h),
        fun h => OnceToken.noConfusion (htok.symm.trans h),
        fun _ => ⟨h1, ⟨hpub, ?_⟩⟩⟩
      intro k
      show Function.update w.threads i ThreadPC.finished k ≠ ThreadPC.inBody
      by_cases hk : k = i
      · subst hk
        rw [Function.update_same]
        exact fun hh => ThreadPC.noConfusion hh
      · rw [Function.update_noteq hk]
        exact hnb k

/-- The invariant holds in every reachable state. -/
theorem onceInv_reachable {n : Nat} {w : OnceWorld n}
    (h : OnceReachable n w) : OnceInv w := by
  induction h with
  | refl => exact onceInv_init n
  | tail _ hstep ih => exact onceInv_step hstep ih

/-- C1: For every supported storage type, every legal (success, failure)
ordering pair, and every prepared storage location, the strong
compare-exchange succeeds iff the stored value equals `expected` at call
time; on success the storage afterwards holds `desired` and the returned
witness equals `expected`; on failure the storage is unchanged and the
returned witness equals the value actually observed in storage. -/
theorem strong_cmpxchg_correct (succ fail : MemoryOrder)
    (hord : (succ, fail) ∈ cmpxchgOrderPairs) :
    (∀ v e d : Nat,
      let r := _sa_cmpxchg_strong_word succ fail (_sa_prepare_word v) e d
      (r.1 = true ↔ v = e) ∧
      (r.1 = true → r.2.1 = _sa_prepare_word d ∧ r.2.2 = e) ∧
      (r.1 = false → r.2.1 = _sa_prepare_word v ∧ r.2.2 = v)) ∧
    (∀ v e d : Bool,
      let r := _sa_cmpxchg_strong_Bool succ fail (_sa_prepare_Bool v) e d
      (r.1 = true ↔ v = e) ∧
      (r.1 = true → r.2.1 = _sa_prepare_Bool d ∧ r.2.2 = e) ∧
      (r.1 = false → r.2.1 = _sa_prepare_Bool v ∧ r.2.2 = v)) ∧
    (∀ v e d : DWord,
      let r := _sa_cmpxchg_strong_DoubleWord succ fail (_sa_prepare_DoubleWord v) e d
      (r.1 = true ↔ v = e) ∧
      (r.1 = true → r.2.1 = _sa_prepare_DoubleWord d ∧ r.2.2 = e) ∧
      (r.1 = false → r.2.1 = _sa_prepare_DoubleWord v ∧ r.2.2 = v)) := by
  refine ⟨fun v e d => ?_, fun v e d => ?_, fun v e d => ?_⟩
  · by_cases h : v = e
    · subst h
      simp [_sa_cmpxchg_strong_word, _sa_prepare_word]
    · simp [_sa_cmpxchg_strong_word, _sa_prepare_word, h]
  · by_cases h : v = e
    · subst h
      simp [_sa_cmpxchg_strong_Bool, _sa_prepare_Bool]
    · simp [_sa_cmpxchg_strong_Bool, _sa_prepare_Bool, h]
  · by_cases h : v.value = e.value
    · have hve : v = e := DWord_ext h
      subst hve
      simp [_sa_cmpxchg_strong_DoubleWord, _sa_prepare_DoubleWord,
        _sa_encode_dword, _sa_decode_dword]
    · have hne : v ≠ e := fun hh => h (congrArg DWord.value hh)
      simp [_sa_cmpxchg_strong_DoubleWord, _sa_prepare_DoubleWord,
        _sa_encode_dword, _sa_decode_dword, h, hne]

/-- Witness for C1 at the seq_cst/seq_cst pair on a word cell. -/
theorem strong_cmpxchg_correct_witness :
    (let r := _sa_cmpxchg_strong_word .seq_cst .seq_cst (_sa_prepare_word 5) 5 9
     (r.1 = true ↔ (5 : Nat) = 5) ∧
     (r.1 = true → r.2.1 = _sa_prepare_word 9 ∧ r.2.2 = 5) ∧
     (r.1 = false → r.2.1 = _sa_prepare_word 5 ∧ r.2.2 = 5)) :=
  (strong_cmpxchg_correct .seq_cst .seq_cst (by decide)).1 5 5 9

/-- C2: For every supported storage type and every legal (success,
failure) ordering pair, the weak compare-exchange never returns true when
the stored value did not equal `expected`, whatever the spurious-failure
choice. -/
theorem weak_cmpxchg_safety (succ fail : MemoryOrder)
    (hord : (succ, fail) ∈ cmpxchgOrderPairs) :
    (∀ (spurious : Bool) (v e d : Nat),
      (_sa_cmpxchg_weak_word spurious succ fail (_sa_prepare_word v) e d).1 = true →
        v = e) ∧
    (∀ (spurious : Bool) (v e d : Bool),
      (_sa_cmpxchg_weak_Bool spurious succ fail (_sa_prepare_Bool v) e d).1 = true →
        v = e) ∧
    (∀ (spurious : Bool) (v e d : DWord),
      (_sa_cmpxchg_weak_DoubleWord spurious succ fail (_sa_prepare_DoubleWord v) e d).1 = true →
        v = e) := by
  refine ⟨fun sp v e d h => ?_, fun sp v e d h => ?_, fun sp v e d h => ?_⟩
  · by_cases hve : v = e
    · exact hve
    · exfalso
      simp [_sa_cmpxchg_weak_word, _sa_prepare_word, hve] at h
  · by_cases hve : v = e
    · exact hve
    · exfalso
      simp [_sa_cmpxchg_weak_Bool, _sa_prepare_Bool, hve] at h
  · by_cases hve : v.value = e.value
    · exact DWord_ext hve
    · exfalso
      simp [_sa_cmpxchg_weak_DoubleWord, _sa_prepare_DoubleWord,
        _sa_encode_dword, hve] at h

/-- Witness for C2 at the relaxed/relaxed pair with no spurious failure:
the call succeeds here, so the safety theorem applies and its conclusion
is discharged at the concrete input. -/
theorem weak_cmpxchg_safety_witness :
    (_sa_cmpxchg_weak_word false .relaxed .relaxed (_sa_prepare_word 4) 4 6).1 = true ∧
      (4 : Nat) = 4 :=
  ⟨by decide, (weak_cmpxchg_safety .relaxed .relaxed (by decide)).1 false 4 4 6 (by decide)⟩

/-- C3: For every supported storage type, every value, every generated
store ordering and every generated load ordering, a store followed by a
load of the same storage with no intervening operation returns the stored
value. -/
theorem store_load_roundtrip (so lo : MemoryOrder)
    (hso : so ∈ storeOrders) (hlo : lo ∈ loadOrders) :
    (∀ (s : WordStorage) (v : Nat), _sa_load_word lo (_sa_store_word so s v) = v) ∧
    (∀ (s : BoolStorage) (v : Bool), _sa_load_Bool lo (_sa_store_Bool so s v) = v) ∧
    (∀ (s : DWordStorage) (v : DWord),
      _sa_load_DoubleWord lo (_sa_store_DoubleWord so s v) = v) :=
  ⟨fun _ _ => rfl, fun _ _ => rfl, fun _ _ => rfl⟩

/-- Witness for C3 at the release/acquire pair on a word cell. -/
theorem store_load_roundtrip_witness :
    _sa_load_word .acquire (_sa_store_word .release (_sa_prepare_word 0) 42) = 42 :=
  (store_load_roundtrip .release .acquire (by decide) (by decide)).1
    (_sa_prepare_word 0) 42

/-- C6: For every supported storage type and value, dispose of prepared
storage returns the prepared value, and dispose only decodes the stored
representation, with no other effect. -/
theorem dispose_prepare_roundtrip :
    (∀ v : Nat, _sa_dispose_word (_sa_prepare_word v) = v) ∧
    (∀ v : Bool, _sa_dispose_Bool (_sa_prepare_Bool v) = v) ∧
    (∀ v : DWord, _sa_dispose_DoubleWord (_sa_prepare_DoubleWord v) = v) ∧
    (∀ s : WordStorage, _sa_dispose_word s = s.value) ∧
    (∀ s : BoolStorage, _sa_dispose_Bool s = s.value) ∧
    (∀ s : DWordStorage, _sa_dispose_DoubleWord s = _sa_decode_dword s.value) :=
  ⟨fun _ => rfl, fun _ => rfl, fun _ => rfl, fun _ => rfl, fun _ => rfl,
   fun _ => rfl⟩

/-- C9: For a storage type whose encode and decode adapters are the
identity, the COMPLEX compare-exchange variant computes exactly the same
result triple — returned boolean, final storage contents, and value
written back into `*expected` — as the SIMPLE variant on the same
inputs. -/
theorem cmpxchg_complex_refines_simple {T : Type} [DecidableEq T]
    (encode decode : T → T)
    (hencode : ∀ x, encode x = x) (hdecode : ∀ x, decode x = x)
    (storage expected desired : T) :
    cmpxchgComplex encode decode storage expected desired =
      cmpxchgSimple storage expected desired := by
  simp only [cmpxchgComplex, cmpxchgSimple, hencode, hdecode]

/-- Witness for C9 with identity adapters on a word value. -/
theorem cmpxchg_complex_refines_simple_witness :
    cmpxchgComplex (fun x : Nat => x) (fun x => x) 3 3 7 = cmpxchgSimple 3 3 7 :=
  cmpxchg_complex_refines_simple (fun x => x) (fun x => x)
    (fun _ => rfl) (fun _ => rfl) 3 3 7

/-- C4: On both the 64-bit-pointer and the 32-bit-pointer configuration,
extracting the high and low halves of a constructed double word returns
the construction arguments. -/
theorem dword_construct_extract_roundtrip (pw : Nat)
    (hpw : pw = 64 ∨ pw = 32) (high low : Nat)
    (hh : high < 2 ^ pw) (hl : low < 2 ^ pw) :
    _sa_dword_extract_high pw (_sa_dword_create pw high low) = high ∧
    _sa_dword_extract_low pw (_sa_dword_create pw high low) = low :=
  ⟨dword_extract_high_create hh hl, dword_extract_low_create hh hl⟩

/-- Witness for C4 on both pointer-width configurations. -/
theorem dword_construct_extract_roundtrip_witness :
    (_sa_dword_extract_high 64 (_sa_dword_create 64 3 5) = 3 ∧
      _sa_dword_extract_low 64 (_sa_dword_create 64 3 5) = 5) ∧
    (_sa_dword_extract_high 32 (_sa_dword_create 32 7 9) = 7 ∧
      _sa_dword_extract_low 32 (_sa_dword_create 32 7 9) = 9) :=
  ⟨dword_construct_extract_roundtrip 64 (Or.inl rfl) 3 5 (by norm_num) (by norm_num),
   dword_construct_extract_roundtrip 32 (Or.inr rfl) 7 9 (by norm_num) (by norm_num)⟩

/-- C10: On both pointer-width configurations, reconstructing a double
word from its extracted halves gives it back, and the packing map is a
bijection between pairs of pointer-width bit patterns and double-width
bit patterns. -/
theorem dword_construct_bijective (pw : Nat) (hpw : pw = 64 ∨ pw = 32) :
    (∀ d : DWord, d.value < 2 ^ (2 * pw) →
      _sa_dword_create pw (_sa_dword_extract_high pw d)
        (_sa_dword_extract_low pw d) = d) ∧
    Function.Bijective (dwordPack pw) := by
  refine ⟨fun d hd => dword_create_extract d hd, ?_⟩
  have hleft : Function.LeftInverse (dwordUnpack pw) (dwordPack pw) := by
    rintro ⟨h, l⟩
    have h1 := @dword_extract_high_create pw h.val l.val h.isLt l.isLt
    have h2 := @dword_extract_low_create pw h.val l.val h.isLt l.isLt
    apply Prod.ext <;> apply Fin.ext
    · exact h1
    · exact h2
  have hright : Function.RightInverse (dwordUnpack pw) (dwordPack pw) := by
    rintro ⟨d, hd⟩
    apply Fin.ext
    exact congrArg DWord.value (dword_create_extract ⟨d⟩ hd)
  exact Function.bijective_iff_has_inverse.mpr ⟨dwordUnpack pw, hleft, hright⟩

/-- Witness for C10 at the 64-bit-pointer configuration. -/
theorem dword_construct_bijective_witness :
    _sa_dword_create 64 (_sa_dword_extract_high 64 ⟨12345⟩)
      (_sa_dword_extract_low 64 ⟨12345⟩) = (⟨12345⟩ : DWord) :=
  (dword_construct_bijective 64 (Or.inl rfl)).1 ⟨12345⟩ (by norm_num)

/-- C5 counterexample: the header generates no fetch-add (or fetch-sub)
family for `Bool` — lines 309-311 instantiate only the or/xor/and
families — so the claim that `fetchModify(op, ...)` is defined for boolean
storage for every op in add/sub/or/xor/and fails at `(Bool, add)`. -/
theorem fetch_add_Bool_not_generated :
    fetchModifyDefined AtomicTy.Bool FetchOp.add = false ∧
    _sa_fetch_Bool FetchOp.add MemoryOrder.seq_cst ⟨false⟩ true = none :=
  ⟨rfl, rfl⟩

/-- C5 (amended): for every integer storage type, every op in
add/sub/or/xor/and and every generated ordering, fetchModify is defined,
returns the value held immediately before the call, and leaves the
storage holding the old value combined with the operand by the op,
wrapping modulo `2 ^ width`; for boolean storage exactly the ops
or/xor/and are defined and their bitwise action on the stored bit pattern
models logical or/xor/and; fetchModify is defined for no other storage
type. -/
theorem fetchModify_correct (order : MemoryOrder)
    (horder : order ∈ updateOrders) :
    (∀ (t : AtomicTy) (op : FetchOp),
      fetchModifyDefined t op = true ↔
        (isIntegerTy t = true ∨
          (t = .Bool ∧ (op = .or ∨ op = .xor ∨ op = .and)))) ∧
    (∀ (w : Nat) (op : FetchOp) (v operand : Nat),
      (_sa_fetch_word w op order (_sa_prepare_word v) operand).1 = v ∧
      _sa_dispose_word (_sa_fetch_word w op order (_sa_prepare_word v) operand).2 =
        fetchOpWord w op v operand) ∧
    (∀ a b : Bool,
      _sa_fetch_Bool .or order (_sa_prepare_Bool a) b = some (a, ⟨a || b⟩) ∧
      _sa_fetch_Bool .xor order (_sa_prepare_Bool a) b = some (a, ⟨Bool.xor a b⟩) ∧
      _sa_fetch_Bool .and order (_sa_prepare_Bool a) b = some (a, ⟨a && b⟩) ∧
      _sa_fetch_Bool .add order (_sa_prepare_Bool a) b = none ∧
      _sa_fetch_Bool .sub order (_sa_prepare_Bool a) b = none) := by
  refine ⟨by decide, fun w op v operand => ⟨rfl, rfl⟩, fun a b => ?_⟩
  cases a <;> cases b <;> exact ⟨rfl, rfl, rfl, rfl, rfl⟩

/-- Witness for C5 (amended) at an 8-bit wrapping add under seq_cst. -/
theorem fetchModify_correct_witness :
    (_sa_fetch_word 8 FetchOp.add MemoryOrder.seq_cst (_sa_prepare_word 250) 10).1 = 250 ∧
    _sa_dispose_word
        (_sa_fetch_word 8 FetchOp.add MemoryOrder.seq_cst (_sa_prepare_word 250) 10).2 =
      fetchOpWord 8 FetchOp.add 250 10 :=
  (fetchModify_correct MemoryOrder.seq_cst (by decide)).2.1 8 FetchOp.add 250 10

/-- C7: On the dynamic-binding (Apple) configuration, if the one-time
initializer cannot attach to an already-resident instance of the Swift
runtime module, any first call to either reference-count entry point
aborts the process — there is no degraded mode — and the initializer
never causes a fresh load of a new module instance. -/
theorem resolver_aborts_without_resident_module
    (dlsymCore : String → Nat) (st : LoaderState)
    (h : st.swiftCoreResident = false) :
    _sa_retain_n_first dlsymCore st = (.aborted, st) ∧
    _sa_release_n_first dlsymCore st = (.aborted, st) ∧
    (∀ st' : LoaderState, (_sa_initializeResolver dlsymCore st').2 = st') := by
  have habort : _sa_initializeResolver dlsymCore st = (.aborted, st) := by
    simp [_sa_initializeResolver, dlopenSwiftCore, h]
  refine ⟨habort, habort, fun st' => ?_⟩
  by_cases h' : st'.swiftCoreResident
  · simp [_sa_initializeResolver, dlopenSwiftCore, h']
  · simp [_sa_initializeResolver, dlopenSwiftCore, h']

/-- Witness for C7 with the module not resident. -/
theorem resolver_aborts_without_resident_module_witness :
    _sa_retain_n_first (fun _ => 0) ⟨false⟩ = (.aborted, ⟨false⟩) :=
  (resolver_aborts_without_resident_module (fun _ => 0) ⟨false⟩ rfl).1

/-- C8: For any positive number of threads racing through the one-time
gate to trigger the first call, under every interleaving in which all
threads complete, the initializer body has run exactly once (the
instrumentation counter equals 1) and the resolved pointers are
published. -/
theorem once_gate_exactly_once (n : Nat) (hn : 0 < n) (w : OnceWorld n)
    (hreach : OnceReachable n w) (hfin : ∀ i, w.threads i = .finished) :
    w.counter = 1 ∧ w.published = true := by
  have hinv := onceInv_reachable hreach
  cases htok : w.token
  case uninit =>
    obtain ⟨-, -, hstart⟩ := hinv.1 htok
    have hs := hstart ⟨0, hn⟩
    rw [hfin ⟨0, hn⟩] at hs
    exact ThreadPC.noConfusion hs
  case claimed =>
    obtain ⟨-, j, hj, -⟩ := hinv.2.1 htok
    rw [hfin j] at hj
    exact ThreadPC.noConfusion hj
  case done =>
    obtain ⟨h1, hpub, -⟩ := hinv.2.2 htok
    exact ⟨h1, hpub⟩

/-- Witness for C8: one thread, the two-step schedule claim-then-body. -/
theorem once_gate_exactly_once_witness :
    ({ token := .done, counter := 1, published := true,
       threads := Function.update
         (Function.update (fun _ => .start) (0 : Fin 1) .inBody) 0 .finished } :
      OnceWorld 1).counter = 1 ∧
    ({ token := .done, counter := 1, published := true,
       threads := Function.update
         (Function.update (fun _ => .start) (0 : Fin 1) .inBody) 0 .finished } :
      OnceWorld 1).published = true := by
  refine once_gate_exactly_once 1 Nat.one_pos _ ?_ ?_
  · refine Relation.ReflTransGen.tail
      (Relation.ReflTransGen.single (OnceStep.enter (onceInit 1) 0 rfl rfl)) ?_
    exact OnceStep.body _ 0 (by
      show Function.update (onceInit 1).threads 0 ThreadPC.inBody 0 = ThreadPC.inBody
      rw [Function.update_same])
  · intro i
    show Function.update
      (Function.update (fun _ => ThreadPC.start) (0 : Fin 1) .inBody) 0 .finished i =
        ThreadPC.finished
    rw [Fin.eq_zero i, Function.update_same]

end SwiftAtomics
